import Mathlib

/-!
Shallow embedding of the sparse-parameter manager in
`src/Utility/Torch/Sparse/Gardener.py`.

Weights are modelled as rationals, graph coordinates as integers, tensors as
lists.  The mutable object state (`self.backend`, `self.active_index`,
`self.inactive_index`, the coordinate sparse structure and the warning
suppression flag) becomes an explicit record `SPState`; a method that mutates
`self` becomes a function returning the new state, and a method that can raise
becomes a function into `Except`.  The sparse structure `self.sparse` is kept
as the three coordinate lists `srow`, `scol`, `sval` (a `None` sparse tensor is
identified with the empty structure, which concatenation treats identically).
Emission of the one-time `RuntimeWarning` in `grow_` is modelled as an extra
boolean output of the call.
-/

/-- The state of one sparse parameter object, as manipulated by the
`prune_` / `grow_` code in `Gardener.py`. -/
structure SPState where
  backend : List ℚ
  active_index : List ℕ
  inactive_index : List ℕ
  srow : List ℤ
  scol : List ℤ
  sval : List ℚ
  suppressing_grow_warning : Bool
  deriving Repr, DecidableEq

/-- Modelled from the spec: the accessor `self.total_inactive` lives on the
`SparseParameter` class, which is absent from the source tree (only
`Gardener.py` which uses it is present); per the spec it is the count of
inactive slots. -/
def totalInactive (s : SPState) : ℕ := s.inactive_index.length

/-- Modelled from the spec: the accessor `self.total_param_space` lives on the
absent `SparseParameter` class; per the spec the total capacity is
`len(active_index) + len(inactive_index)`, constant across prune/grow. -/
def totalParamSpace (s : SPState) : ℕ :=
  s.active_index.length + s.inactive_index.length

/-- Python `round`: round half to even (banker's rounding), as used in
`round(rel_percentage / 100. * value.shape[0])`. -/
def pyRound (q : ℚ) : ℤ :=
  let f := q.floor
  let frac := q - (f : ℚ)
  if frac < 1/2 then f
  else if 1/2 < frac then f + 1
  else if f % 2 = 0 then f else f + 1

/-- Fancy indexing `xs[idx]` of a tensor by an index tensor (all uses in the
source index with positions that are in range; out-of-range reads default). -/
def gather (d : α) (xs : List α) (idx : List ℕ) : List α :=
  idx.map fun i => xs.getD i d

/-- In-place fancy-index assignment `backend[idx] = vals`. -/
def scatter (backend : List ℚ) (idx : List ℕ) (vals : List ℚ) : List ℚ :=
  (idx.zip vals).foldl (fun b p => b.set p.1 p.2) backend

/-- `torch.argsort(torch.abs(value))`: the index permutation sorting the
values by absolute value, ascending (modelled with a stable sort; ties keep
their original relative order, matching the spec's tie-break note). -/
def argsortAbs (v : List ℚ) : List ℕ :=
  List.insertionSort (fun i j => |v.getD i 0| ≤ |v.getD j 0|) (List.range v.length)

/-- Errors raised by `prune_`: the argument `assert`s, and the
`raise RuntimeError` on the no-mode path. -/
inductive PruneErr where
  | assertionError
  | runtimeError
  deriving Repr, DecidableEq

/-- The argument `assert` block at the top of `prune_` (lines 61-72), exactly
as written in the source — including the `assert rel_percentage is not None`
in the `abs_percentage` branch. -/
def pruneChecksOk (threshold rel_percentage abs_percentage : Option ℚ) : Bool :=
  (threshold.all fun t =>
    decide (0 ≤ t) && rel_percentage.isNone && abs_percentage.isNone) &&
  (rel_percentage.all fun p =>
    decide (p ≤ 100) && decide (0 ≤ p) && threshold.isNone && abs_percentage.isNone) &&
  (abs_percentage.all fun p =>
    decide (p ≤ 100) && decide (0 ≤ p) && threshold.isNone && rel_percentage.isSome)

/-- The "number of nonpassing values" computation of `prune_` (lines 84-94),
branch order as in the source; `none` is the unreachable-mode path that raises
`RuntimeError`. -/
def numFailed (s : SPState) (threshold rel_percentage abs_percentage : Option ℚ) :
    Option ℕ :=
  match rel_percentage with
  | some p => some (pyRound (p / 100 * (s.sval.length : ℚ))).toNat
  | none =>
    match threshold with
    | some t => some (s.sval.countP fun v => !decide (t < |v|))
    | none =>
      match abs_percentage with
      | some p =>
        some ((pyRound (p / 100 * (totalParamSpace s : ℚ)) - (totalInactive s : ℤ)).toNat)
      | none => none

/-- `Gardener.prune_` (lines 28-114).  The `sort` argument is accepted but,
as in the source, never read (the source always uses
`torch.argsort(torch.abs(value))`); the source allows a string or callable
here, either way unused. -/
def prune_ (s : SPState) (threshold rel_percentage abs_percentage : Option ℚ)
    (sort : Option String) : Except PruneErr SPState :=
  if pruneChecksOk threshold rel_percentage abs_percentage then
    match numFailed s threshold rel_percentage abs_percentage with
    | none => Except.error PruneErr.runtimeError
    | some nf =>
      let sorted_results := argsortAbs s.sval
      let failed_indices := sorted_results.take nf
      let passed_indices := sorted_results.drop nf
      Except.ok
        { backend := s.backend
          active_index := gather 0 s.active_index passed_indices
          inactive_index := s.inactive_index ++ gather 0 s.active_index failed_indices
          srow := gather 0 s.srow passed_indices
          scol := gather 0 s.scol passed_indices
          sval := gather 0 s.sval passed_indices
          suppressing_grow_warning := s.suppressing_grow_warning }
  else Except.error PruneErr.assertionError

/-- The `value` argument of `grow_`: a scalar (int/float or 0-dim tensor,
broadcast with `torch.full`) or a 1-d tensor. -/
inductive GrowValue where
  | scalar (q : ℚ)
  | tensor (l : List ℚ)
  deriving Repr, DecidableEq

/-- The value-normalisation prologue of `grow_` (lines 156-160): a scalar is
expanded to a full vector of the request length. -/
def expandValue (n : ℕ) : GrowValue → List ℚ
  | GrowValue.scalar q => List.replicate n q
  | GrowValue.tensor l => l

/-- Errors raised by `grow_`: shape `assert`s, and the `IndexError` on the
capacity-exceeded path without discard (the spec's `CapacityError`). -/
inductive GrowErr where
  | assertionError
  | indexError
  deriving Repr, DecidableEq

/-- The committing tail of `grow_` (lines 185-213): activate the head of the
inactive list, write the values into the backing store, append the new triples
to the sparse structure, and compute the return flag by comparing the request
length against `self.total_inactive` as it stands after the update.  Returns
(new state, returned boolean, whether a warning was emitted). -/
def growCommit (s : SPState) (rr cc : List ℤ) (vv : List ℚ)
    (suppress warned : Bool) : SPState × Bool × Bool :=
  let len := rr.length
  let newly_active := s.inactive_index.take len
  let remaining := s.inactive_index.drop len
  let backend2 := scatter s.backend newly_active vv
  let v2 := gather 0 backend2 newly_active
  ({ backend := backend2
     active_index := s.active_index ++ newly_active
     inactive_index := remaining
     srow := s.srow ++ rr
     scol := s.scol ++ cc
     sval := s.sval ++ v2
     suppressing_grow_warning := suppress },
   !decide (remaining.length < len), warned)

/-- `Gardener.grow_` (lines 116-213). -/
def grow_ (s : SPState) (row col : List ℤ) (value : GrowValue)
    (discard_unused : Bool) : Except GrowErr (SPState × Bool × Bool) :=
  if row.length = col.length then
    if (expandValue row.length value).length = row.length then
      if totalInactive s < row.length then
        if discard_unused then
          Except.ok (growCommit s (row.take (totalInactive s))
            (col.take (totalInactive s))
            ((expandValue row.length value).take (totalInactive s)) true
            (!s.suppressing_grow_warning))
        else Except.error GrowErr.indexError
      else Except.ok (growCommit s row col (expandValue row.length value)
        s.suppressing_grow_warning false)
    else Except.error GrowErr.assertionError
  else Except.error GrowErr.assertionError

/-- One prune or grow call, for reasoning about call sequences. -/
inductive Op where
  | prune (threshold rel_percentage abs_percentage : Option ℚ) (sort : Option String)
  | grow (row col : List ℤ) (value : GrowValue) (discard_unused : Bool)

/-- Apply one call to a state; a call that raises leaves the state unchanged
(in the source every raise happens before any assignment to `self`). -/
def applyOp (s : SPState) : Op → SPState
  | Op.prune th rel ab sort =>
    match prune_ s th rel ab sort with
    | Except.ok s2 => s2
    | Except.error _ => s
  | Op.grow r c v d =>
    match grow_ s r c v d with
    | Except.ok (s2, _, _) => s2
    | Except.error _ => s

/-- Run a sequence of prune/grow calls. -/
def runOps (s : SPState) (ops : List Op) : SPState :=
  ops.foldl applyOp s

/-- The state invariant of a sparse parameter with construction capacity
`cap`: active and inactive indices together are a permutation of the full slot
range, the backing store has length `cap`, and the sparse structure's three
lists all have the active length. -/
def Invariant (cap : ℕ) (s : SPState) : Prop :=
  (s.active_index ++ s.inactive_index).Perm (List.range cap) ∧
  s.backend.length = cap ∧
  s.srow.length = s.active_index.length ∧
  s.scol.length = s.active_index.length ∧
  s.sval.length = s.active_index.length

instance (cap : ℕ) (s : SPState) : Decidable (Invariant cap s) := by
  unfold Invariant; infer_instance

/-- One item yielded by `model.modules()` during Gardener discovery: either a
`SparseParameter` instance or some other module. -/
inductive ModuleItem where
  | sparse (p : SPState)
  | dense

/-- `Gardener.__init__` (lines 13-26): collect the sparse parameters found by
walking the model's modules, in order. -/
def gardenerInit (modules : List ModuleItem) : List SPState :=
  modules.filterMap fun m =>
    match m with
    | ModuleItem.sparse p => some p
    | ModuleItem.dense => none

/-- Modelled from the spec: the per-instance outcomes of a broadcast prune —
the prune operation applied to every discovered instance in order. -/
def pruneResults (ps : List SPState)
    (threshold rel_percentage abs_percentage : Option ℚ)
    (sort : Option String) : List (Except PruneErr SPState) :=
  ps.map fun p => prune_ p threshold rel_percentage abs_percentage sort

/-- Modelled from the spec: the per-instance outcomes of a broadcast grow —
the grow operation applied to every discovered instance in order. -/
def growResults (ps : List SPState) (row col : List ℤ) (value : GrowValue)
    (discard_unused : Bool) : List (Except GrowErr (SPState × Bool × Bool)) :=
  ps.map fun p => grow_ p row col value discard_unused

/-- Modelled from the spec: the broadcast operation `prune_all` is absent from
the source tree (the source `Gardener` only stores the collection).  Per the
spec it applies the prune operation to every discovered instance and returns
the per-instance outcome list, a failure on one instance being recorded
without halting the others — except that when every instance fails with the
identical error it re-raises that error to the top level instead of returning
a list (spec sections 4.2 and 7; every `prune_` error is a caller-side
configuration mistake: the argument `assert`s or the zero-mode
`RuntimeError`). -/
def prune_all (ps : List SPState)
    (threshold rel_percentage abs_percentage : Option ℚ)
    (sort : Option String) : Except PruneErr (List (Except PruneErr SPState)) :=
  match pruneResults ps threshold rel_percentage abs_percentage sort with
  | [] => Except.ok []
  | Except.error e :: rest =>
    if rest.all fun r =>
        match r with
        | Except.error e2 => decide (e2 = e)
        | Except.ok _ => false then
      Except.error e
    else Except.ok (Except.error e :: rest)
  | Except.ok s2 :: rest => Except.ok (Except.ok s2 :: rest)

/-- Modelled from the spec: the broadcast operation `grow_all` is absent from
the source tree.  Per the spec it applies the grow operation to every
discovered instance and returns the per-instance outcome list — except that
when every instance fails validation identically (the shape `assert`s, the
spec's `ValidationError`) the error propagates to the top level as a caller
mistake (spec sections 4.2 and 7); capacity failures (`IndexError`, the
spec's `CapacityError`) are a per-instance runtime condition and stay in the
outcome list. -/
def grow_all (ps : List SPState) (row col : List ℤ) (value : GrowValue)
    (discard_unused : Bool) :
    Except GrowErr (List (Except GrowErr (SPState × Bool × Bool))) :=
  match growResults ps row col value discard_unused with
  | [] => Except.ok []
  | Except.error GrowErr.assertionError :: rest =>
    if rest.all fun r =>
        match r with
        | Except.error GrowErr.assertionError => true
        | _ => false then
      Except.error GrowErr.assertionError
    else Except.ok (Except.error GrowErr.assertionError :: rest)
  | r :: rest => Except.ok (r :: rest)

/-! ### Concrete states used to check the claims on explicit inputs -/

/-- Capacity 3, empty: all slots inactive, empty sparse structure. -/
def exEmpty3 : SPState :=
  { backend := [0, 0, 0], active_index := [], inactive_index := [0, 1, 2],
    srow := [], scol := [], sval := [], suppressing_grow_warning := false }

/-- A sample call sequence: one grow of two connections, then a threshold
prune. -/
def exOps : List Op :=
  [Op.grow [0, 1] [0, 1] (GrowValue.scalar 1) true,
   Op.prune (some 1) none none none]

/-- The spec's Scenario D: capacity 5, four active slots, one inactive slot. -/
def scenarioD : SPState :=
  { backend := [1, 1, 1, 1, 0], active_index := [0, 1, 2, 3],
    inactive_index := [4], srow := [0, 0, 1, 1], scol := [0, 1, 0, 1],
    sval := [1, 1, 1, 1], suppressing_grow_warning := false }

/-- The spec's Scenario E: capacity 5, no inactive slot remaining. -/
def scenarioE : SPState :=
  { backend := [1, 1, 1, 1, 1], active_index := [0, 1, 2, 3, 4],
    inactive_index := [], srow := [0, 0, 1, 1, 2], scol := [0, 1, 0, 1, 0],
    sval := [1, 1, 1, 1, 1], suppressing_grow_warning := false }

/-- Capacity 2 with one active and one inactive slot, for truncated grows. -/
def exOneSpare : SPState :=
  { backend := [1, 0], active_index := [0], inactive_index := [1],
    srow := [0], scol := [0], sval := [1], suppressing_grow_warning := false }

/-- Capacity 1 with a single active weight of magnitude exactly 1. -/
def exBoundary : SPState :=
  { backend := [1], active_index := [0], inactive_index := [],
    srow := [0], scol := [0], sval := [1], suppressing_grow_warning := false }

/-- Capacity 2, both slots active, weights 3 and 1 in that order. -/
def exTwoWeights : SPState :=
  { backend := [3, 1], active_index := [0, 1], inactive_index := [],
    srow := [0, 0], scol := [0, 1], sval := [3, 1],
    suppressing_grow_warning := false }

/-- The state `exTwoWeights` after a threshold-2 prune. -/
def exTwoWeightsPruned : SPState :=
  { backend := [3, 1], active_index := [0], inactive_index := [1],
    srow := [0], scol := [0], sval := [3],
    suppressing_grow_warning := false }

/-- The state `exTwoWeights` after a threshold-0 prune: nothing is
deactivated but the survivors are re-emitted in ascending-magnitude order. -/
def exTwoWeightsPruned0 : SPState :=
  { backend := [3, 1], active_index := [1, 0], inactive_index := [],
    srow := [0, 0], scol := [1, 0], sval := [1, 3],
    suppressing_grow_warning := false }

/-- A state on which both `prune_` (no mode given) and a mismatched `grow_`
fail, for the broadcast per-instance-failure check. -/
def exBad : SPState :=
  { backend := [0], active_index := [], inactive_index := [0],
    srow := [], scol := [], sval := [], suppressing_grow_warning := false }

/-! ### Helper lemmas -/

theorem gather_range (d : α) (xs : List α) :
    gather d xs (List.range xs.length) = xs := by
  induction xs with
  | nil => rfl
  | cons a l ih =>
    have h2 : gather d (a :: l) ((List.range l.length).map Nat.succ) = l := by
      rw [gather, List.map_map]
      have : ((a :: l).getD · d) ∘ Nat.succ = (l.getD · d) := by
        funext i
        simp
      rw [this]
      exact ih
    rw [List.length_cons, List.range_succ_eq_map, gather, List.map_cons, ← gather, h2]
    simp [List.getD_cons_zero]

theorem gather_length (d : α) (xs : List α) (idx : List ℕ) :
    (gather d xs idx).length = idx.length := by
  simp [gather]

theorem gather_append (d : α) (xs : List α) (idx₁ idx₂ : List ℕ) :
    gather d xs (idx₁ ++ idx₂) = gather d xs idx₁ ++ gather d xs idx₂ := by
  simp [gather]

theorem scatter_length (idx : List ℕ) (vals : List ℚ) (b : List ℚ) :
    (scatter b idx vals).length = b.length := by
  rw [scatter]
  generalize idx.zip vals = l
  induction l generalizing b with
  | nil => rfl
  | cons p l ih =>
    rw [List.foldl_cons, ih]
    simp

theorem argsortAbs_perm (v : List ℚ) :
    (argsortAbs v).Perm (List.range v.length) :=
  List.perm_insertionSort _ _

theorem argsortAbs_sorted (v : List ℚ) :
    (argsortAbs v).Pairwise fun i j => |v.getD i 0| ≤ |v.getD j 0| := by
  haveI : IsTotal ℕ fun i j => |v.getD i 0| ≤ |v.getD j 0| :=
    ⟨fun i j => le_total _ _⟩
  haveI : IsTrans ℕ fun i j => |v.getD i 0| ≤ |v.getD j 0| :=
    ⟨fun i j k hij hjk => le_trans hij hjk⟩
  exact List.sorted_insertionSort _ _

theorem scatter_getD_of_not_mem (idx : List ℕ) (vals : List ℚ) (b : List ℚ)
    (j : ℕ) (h : j ∉ idx) : (scatter b idx vals).getD j 0 = b.getD j 0 := by
  induction idx generalizing vals b with
  | nil => rfl
  | cons i idx ih =>
    cases vals with
    | nil => rfl
    | cons v vs =>
      have hj : j ∉ idx := fun hm => h (List.mem_cons_of_mem _ hm)
      have hne : i ≠ j := fun he => h (he ▸ List.mem_cons_self _ _)
      have : scatter b (i :: idx) (v :: vs) = scatter (b.set i v) idx vs := rfl
      rw [this, ih vs _ hj]
      simp [List.getD_eq_getElem?_getD, List.getElem?_set_ne hne]

theorem gather_scatter (idx : List ℕ) (vals : List ℚ) (b : List ℚ)
    (hnd : idx.Nodup) (hlt : ∀ i ∈ idx, i < b.length)
    (hlen : vals.length = idx.length) :
    gather 0 (scatter b idx vals) idx = vals := by
  induction idx generalizing vals b with
  | nil =>
    cases vals with
    | nil => rfl
    | cons v vs => simp at hlen
  | cons i idx ih =>
    cases vals with
    | nil => simp at hlen
    | cons v vs =>
      have hstep : scatter b (i :: idx) (v :: vs) = scatter (b.set i v) idx vs := rfl
      have hnotmem : i ∉ idx := (List.nodup_cons.1 hnd).1
      have hhead : (scatter (b.set i v) idx vs).getD i 0 = v := by
        rw [scatter_getD_of_not_mem idx vs _ i hnotmem]
        have hi : i < b.length := hlt i (List.mem_cons_self _ _)
        simp [List.getD_eq_getElem?_getD, List.getElem?_set_self (by simpa using hi)]
      have htail : gather 0 (scatter (b.set i v) idx vs) idx = vs := by
        refine ih vs _ (List.nodup_cons.1 hnd).2 ?_ (by simpa using hlen)
        intro k hk
        simpa using hlt k (List.mem_cons_of_mem _ hk)
      rw [hstep, gather, List.map_cons, ← gather, htail, hhead]

theorem countP_range_getD (v : List ℚ) (p : ℚ → Bool) :
    ((List.range v.length).countP fun i => p (v.getD i 0)) = v.countP p := by
  conv_rhs => rw [← gather_range 0 v]
  rw [gather, List.countP_map]
  rfl

/-- In a list sorted ascending by `key`, the first `countP (key · ≤ t)`
elements are exactly those with key at most `t`, and the remainder all have
key strictly above `t`. -/
theorem take_drop_sorted_key (key : ℕ → ℚ) (t : ℚ) (l : List ℕ)
    (hs : l.Pairwise fun i j => key i ≤ key j) :
    (∀ i ∈ l.take (l.countP fun i => !decide (t < key i)), key i ≤ t) ∧
    (∀ i ∈ l.drop (l.countP fun i => !decide (t < key i)), t < key i) := by
  induction l with
  | nil => simp
  | cons a l ih =>
    rcases List.pairwise_cons.1 hs with ⟨ha, hl⟩
    by_cases h : t < key a
    · have hrest : ∀ i ∈ l, t < key i := fun i hi => lt_of_lt_of_le h (ha i hi)
      have hc : ((a :: l).countP fun i => !decide (t < key i)) = 0 := by
        rw [List.countP_eq_zero]
        intro i hi
        rcases List.mem_cons.1 hi with rfl | hi
        · simp [h]
        · simp [hrest i hi]
      rw [hc]
      refine ⟨by simp, ?_⟩
      intro i hi
      rcases List.mem_cons.1 hi with rfl | hi
      · exact h
      · exact hrest i hi
    · have hc : ((a :: l).countP fun i => !decide (t < key i)) =
          (l.countP fun i => !decide (t < key i)) + 1 :=
        List.countP_cons_of_pos _ _ (by simp [h])
      rw [hc]
      obtain ⟨ih1, ih2⟩ := ih hl
      constructor
      · intro i hi
        rcases List.mem_cons.1 (by simpa [List.take_succ_cons] using hi) with rfl | hi
        · exact le_of_not_lt h
        · exact ih1 i hi
      · intro i hi
        exact ih2 i (by simpa [List.drop_succ_cons] using hi)

/-- Destructuring a successful `prune_` call into its pieces. -/
theorem prune_ok_elim {s s2 : SPState} {th rel ab : Option ℚ} {sort : Option String}
    (h : prune_ s th rel ab sort = Except.ok s2) :
    pruneChecksOk th rel ab = true ∧
    ∃ nf, numFailed s th rel ab = some nf ∧
      s2 = { backend := s.backend
             active_index := gather 0 s.active_index ((argsortAbs s.sval).drop nf)
             inactive_index :=
               s.inactive_index ++ gather 0 s.active_index ((argsortAbs s.sval).take nf)
             srow := gather 0 s.srow ((argsortAbs s.sval).drop nf)
             scol := gather 0 s.scol ((argsortAbs s.sval).drop nf)
             sval := gather 0 s.sval ((argsortAbs s.sval).drop nf)
             suppressing_grow_warning := s.suppressing_grow_warning } := by
  unfold prune_ at h
  split at h
  · rename_i hchk
    refine ⟨hchk, ?_⟩
    split at h
    · exact absurd h (by simp)
    · rename_i nf hnf
      exact ⟨nf, hnf, (Except.ok.injEq _ _ ▸ h).symm⟩
  · exact absurd h (by simp)

/-- The state component of `growCommit`, written out. -/
theorem growCommit_state (s : SPState) (rr cc : List ℤ) (vv : List ℚ)
    (sup w : Bool) :
    (growCommit s rr cc vv sup w).1 =
      { backend := scatter s.backend (s.inactive_index.take rr.length) vv
        active_index := s.active_index ++ s.inactive_index.take rr.length
        inactive_index := s.inactive_index.drop rr.length
        srow := s.srow ++ rr
        scol := s.scol ++ cc
        sval := s.sval ++ gather 0
          (scatter s.backend (s.inactive_index.take rr.length) vv)
          (s.inactive_index.take rr.length)
        suppressing_grow_warning := sup } := rfl

/-- The returned boolean of `growCommit`, written out. -/
theorem growCommit_ret (s : SPState) (rr cc : List ℤ) (vv : List ℚ)
    (sup w : Bool) :
    (growCommit s rr cc vv sup w).2.1 =
      !decide ((s.inactive_index.drop rr.length).length < rr.length) := rfl

/-- The warning flag output of `growCommit`, written out. -/
theorem growCommit_warned (s : SPState) (rr cc : List ℤ) (vv : List ℚ)
    (sup w : Bool) : (growCommit s rr cc vv sup w).2.2 = w := rfl

/-- `prune_` preserves the state invariant. -/
theorem prune_preserves {cap : ℕ} {s s2 : SPState} {th rel ab : Option ℚ}
    {sort : Option String} (hinv : Invariant cap s)
    (h : prune_ s th rel ab sort = Except.ok s2) : Invariant cap s2 := by
  obtain ⟨-, nf, -, rfl⟩ := prune_ok_elim h
  obtain ⟨hperm, hb, hr, hc, hv⟩ := hinv
  have hP1 : (gather 0 s.active_index ((argsortAbs s.sval).take nf) ++
      gather 0 s.active_index ((argsortAbs s.sval).drop nf)).Perm s.active_index := by
    rw [← gather_append, List.take_append_drop]
    have h1 : (gather 0 s.active_index (argsortAbs s.sval)).Perm
        (gather 0 s.active_index (List.range s.sval.length)) := by
      unfold gather
      exact (argsortAbs_perm s.sval).map _
    rw [hv, gather_range] at h1
    exact h1
  have goalperm : (gather 0 s.active_index ((argsortAbs s.sval).drop nf) ++
      (s.inactive_index ++ gather 0 s.active_index ((argsortAbs s.sval).take nf))).Perm
      (List.range cap) := by
    refine List.Perm.trans ?_ hperm
    have step1 : (gather 0 s.active_index ((argsortAbs s.sval).drop nf) ++
        (s.inactive_index ++ gather 0 s.active_index ((argsortAbs s.sval).take nf))).Perm
        ((gather 0 s.active_index ((argsortAbs s.sval).take nf) ++
          gather 0 s.active_index ((argsortAbs s.sval).drop nf)) ++ s.inactive_index) := by
      refine List.Perm.trans (List.Perm.append_left _ List.perm_append_comm) ?_
      rw [← List.append_assoc]
      exact List.Perm.append_right _ List.perm_append_comm
    exact step1.trans (List.Perm.append_right _ hP1)
  exact ⟨goalperm, hb, by simp [gather_length], by simp [gather_length],
    by simp [gather_length]⟩

/-- `growCommit` preserves the state invariant when the request fits. -/
theorem growCommit_preserves {cap : ℕ} {s : SPState} {rr cc : List ℤ}
    (vv : List ℚ) (sup w : Bool) (hinv : Invariant cap s)
    (hfit : rr.length ≤ s.inactive_index.length) (hcc : cc.length = rr.length) :
    Invariant cap (growCommit s rr cc vv sup w).1 := by
  obtain ⟨hperm, hb, hr, hc, hv⟩ := hinv
  rw [growCommit_state]
  have htk : (s.inactive_index.take rr.length).length = rr.length := by
    simp [List.length_take, Nat.min_eq_left hfit]
  have happ : (s.active_index ++ s.inactive_index.take rr.length) ++
      s.inactive_index.drop rr.length = s.active_index ++ s.inactive_index := by
    rw [List.append_assoc, List.take_append_drop]
  refine ⟨?_, ?_, ?_, ?_, ?_⟩
  · simpa [happ] using hperm
  · simpa [scatter_length] using hb
  · simp [hr, htk]
  · simp [hc, hcc, htk]
  · simp [hv, gather_length, htk]

/-- `grow_` preserves the state invariant. -/
theorem grow_preserves {cap : ℕ} {s s2 : SPState} {row col : List ℤ}
    {value : GrowValue} {d : Bool} {ret warned : Bool} (hinv : Invariant cap s)
    (h : grow_ s row col value d = Except.ok (s2, ret, warned)) :
    Invariant cap s2 := by
  unfold grow_ at h
  by_cases h1 : row.length = col.length
  · rw [if_pos h1] at h
    by_cases h2 : (expandValue row.length value).length = row.length
    · rw [if_pos h2] at h
      by_cases h3 : totalInactive s < row.length
      · rw [if_pos h3] at h
        by_cases h4 : d = true
        · rw [if_pos h4, Except.ok.injEq] at h
          have hs2 := congrArg Prod.fst h
          have hco : (col.take (totalInactive s)).length =
              (row.take (totalInactive s)).length := by
            simp [List.length_take, h1]
          have hfit : (row.take (totalInactive s)).length ≤
              s.inactive_index.length := by
            simp [List.length_take, totalInactive]
          have := growCommit_preserves
            ((expandValue row.length value).take (totalInactive s)) true
            (!s.suppressing_grow_warning) hinv hfit hco
          rwa [hs2] at this
        · rw [if_neg h4] at h
          exact absurd h (by simp)
      · rw [if_neg h3, Except.ok.injEq] at h
        have hs2 := congrArg Prod.fst h
        have hfit : row.length ≤ s.inactive_index.length := by
          simpa [totalInactive] using Nat.le_of_not_lt h3
        have := growCommit_preserves (expandValue row.length value)
          s.suppressing_grow_warning false hinv hfit h1.symm
        rwa [hs2] at this
    · rw [if_neg h2] at h
      exact absurd h (by simp)
  · rw [if_neg h1] at h
    exact absurd h (by simp)

/-- Every step of `runOps` preserves the state invariant. -/
theorem applyOp_preserves {cap : ℕ} {s : SPState} (hinv : Invariant cap s)
    (op : Op) : Invariant cap (applyOp s op) := by
  cases op with
  | prune th rel ab sort =>
    cases hp : prune_ s th rel ab sort with
    | ok s2 =>
      have he : applyOp s (Op.prune th rel ab sort) = s2 := by
        simp only [applyOp]
        rw [hp]
      rw [he]
      exact prune_preserves hinv hp
    | error e =>
      have he : applyOp s (Op.prune th rel ab sort) = s := by
        simp only [applyOp]
        rw [hp]
      rw [he]
      exact hinv
  | grow r c v d =>
    cases hg : grow_ s r c v d with
    | ok out =>
      obtain ⟨s2, ret, warned⟩ := out
      have he : applyOp s (Op.grow r c v d) = s2 := by
        simp only [applyOp]
        rw [hg]
      rw [he]
      exact grow_preserves hinv hg
    | error e =>
      have he : applyOp s (Op.grow r c v d) = s := by
        simp only [applyOp]
        rw [hg]
      rw [he]
      exact hinv

/-- The invariant holds after any sequence of prune/grow calls. -/
theorem runOps_preserves {cap : ℕ} {s : SPState} (hinv : Invariant cap s)
    (ops : List Op) : Invariant cap (runOps s ops) := by
  induction ops generalizing s with
  | nil => exact hinv
  | cons op ops ih => exact ih (applyOp_preserves hinv op)

/-- Gathering a list along the argsort of a value list of the same length
permutes it. -/
theorem gather_argsort_perm {A : List ℕ} {V : List ℚ} (hv : V.length = A.length) :
    (gather 0 A (argsortAbs V)).Perm A := by
  have h1 : (gather 0 A (argsortAbs V)).Perm (gather 0 A (List.range V.length)) := by
    unfold gather
    exact (argsortAbs_perm V).map _
  rw [hv, gather_range] at h1
  exact h1

/-- Reading two equal-length lists along the full index range zips them. -/
theorem map_range_pair (da : α) (db : β) (A : List α) (V : List β)
    (hl : V.length = A.length) :
    (List.range A.length).map (fun i => (A.getD i da, V.getD i db)) = A.zip V := by
  induction A generalizing V with
  | nil => simp
  | cons a A ih =>
    cases V with
    | nil => simp at hl
    | cons v V =>
      rw [List.length_cons, List.range_succ_eq_map, List.map_cons, List.map_map]
      have hcmp : ((fun i => ((a :: A).getD i da, (v :: V).getD i db)) ∘ Nat.succ) =
          fun i => (A.getD i da, V.getD i db) := by
        funext i
        simp
      rw [hcmp, ih V (by simpa using hl)]
      simp

/-- In a threshold prune, the failing index block consists exactly of the
positions whose value magnitude is at most the threshold, and the passing
block of those strictly above it. -/
theorem prune_threshold_drop_gt {s : SPState} {t : ℚ} {nf : ℕ}
    (hnf : numFailed s (some t) none none = some nf) :
    (∀ i ∈ (argsortAbs s.sval).take nf, |s.sval.getD i 0| ≤ t) ∧
    (∀ i ∈ (argsortAbs s.sval).drop nf, t < |s.sval.getD i 0|) := by
  have hnf' : (s.sval.countP fun v => !decide (t < |v|)) = nf := by
    simpa [numFailed] using hnf
  have hcount :
      ((argsortAbs s.sval).countP fun i => !decide (t < |s.sval.getD i 0|)) = nf := by
    rw [(argsortAbs_perm s.sval).countP_eq, ← hnf']
    exact countP_range_getD s.sval fun v => !decide (t < |v|)
  have hmain := take_drop_sorted_key (fun i => |s.sval.getD i 0|) t (argsortAbs s.sval)
    (argsortAbs_sorted s.sval)
  rwa [hcount] at hmain

/-! ### Claim theorems -/

/-- Claim C1: after every sequence of prune and grow calls starting from a
valid state of construction capacity `cap`, the active and inactive index
sequences partition the full slot range — their union is the full range,
their intersection is empty, and their lengths sum to `cap` — and the sparse
structure satisfies `len(row) = len(col) = len(value) = len(active_index)`. -/
theorem claim_C1_partition_invariant {cap : ℕ} {s : SPState}
    (hinv : Invariant cap s) (ops : List Op) :
    (∀ i : ℕ, (i ∈ (runOps s ops).active_index ∨
      i ∈ (runOps s ops).inactive_index) ↔ i < cap) ∧
    (∀ i : ℕ, ¬(i ∈ (runOps s ops).active_index ∧
      i ∈ (runOps s ops).inactive_index)) ∧
    (runOps s ops).active_index.length + (runOps s ops).inactive_index.length = cap ∧
    (runOps s ops).srow.length = (runOps s ops).active_index.length ∧
    (runOps s ops).scol.length = (runOps s ops).active_index.length ∧
    (runOps s ops).sval.length = (runOps s ops).active_index.length := by
  obtain ⟨hperm, hb, hr, hc, hv⟩ := runOps_preserves hinv ops
  refine ⟨?_, ?_, ?_, hr, hc, hv⟩
  · intro i
    rw [← List.mem_range (n := cap), ← hperm.mem_iff, List.mem_append]
  · intro i hi
    have hnd : ((runOps s ops).active_index ++ (runOps s ops).inactive_index).Nodup :=
      hperm.nodup_iff.2 (List.nodup_range cap)
    exact List.disjoint_of_nodup_append hnd hi.1 hi.2
  · simpa using hperm.length_eq

theorem claim_C1_witness :
    Invariant 3 exEmpty3 ∧
    ((∀ i : ℕ, (i ∈ (runOps exEmpty3 exOps).active_index ∨
      i ∈ (runOps exEmpty3 exOps).inactive_index) ↔ i < 3) ∧
    (∀ i : ℕ, ¬(i ∈ (runOps exEmpty3 exOps).active_index ∧
      i ∈ (runOps exEmpty3 exOps).inactive_index)) ∧
    (runOps exEmpty3 exOps).active_index.length +
      (runOps exEmpty3 exOps).inactive_index.length = 3 ∧
    (runOps exEmpty3 exOps).srow.length = (runOps exEmpty3 exOps).active_index.length ∧
    (runOps exEmpty3 exOps).scol.length = (runOps exEmpty3 exOps).active_index.length ∧
    (runOps exEmpty3 exOps).sval.length = (runOps exEmpty3 exOps).active_index.length) :=
  ⟨by decide, claim_C1_partition_invariant (by decide) exOps⟩

/-- Claim C10: the `sort` parameter of `prune_` is never consulted — two prune
calls from the same state whose arguments differ only in `sort` return the
same outcome (the ranking is always ascending absolute weight). -/
theorem claim_C10_sort_never_consulted (s : SPState) (th rel ab : Option ℚ)
    (sort1 sort2 : Option String) :
    prune_ s th rel ab sort1 = prune_ s th rel ab sort2 := rfl

/-- Claim C5 (code bug): supplying only `abs_percentage`, with any value, is
always rejected, because the source's `abs_percentage` branch asserts
`rel_percentage is not None`; so the claim's "a call supplying exactly one
mode with a valid value is not rejected" fails for the `abs_percentage`
mode. -/
theorem claim_C5_abs_mode_rejected (s : SPState) (p : ℚ) (sort : Option String) :
    prune_ s none none (some p) sort = Except.error PruneErr.assertionError := by
  unfold prune_
  have hchk : pruneChecksOk none none (some p) = false := by
    simp [pruneChecksOk]
  rw [hchk]
  rfl

/-- Claim C2 (code bug): the spec's Scenario D — capacity 5, 4 active, a grow
request of size exactly the 1 available inactive slot, `discard_unused=true`.
Nothing is truncated and every requested connection is activated, yet the call
returns `false`: the source compares the request length against
`self.total_inactive` only after the update has already consumed the slots. -/
theorem claim_C2_exact_fit_returns_false :
    grow_ scenarioD [9] [9] (GrowValue.scalar 2) true =
      Except.ok
        ({ backend := [1, 1, 1, 1, 2], active_index := [0, 1, 2, 3, 4],
           inactive_index := [], srow := [0, 0, 1, 1, 9],
           scol := [0, 1, 0, 1, 9], sval := [1, 1, 1, 1, 2],
           suppressing_grow_warning := false },
         false, false) := rfl

/-- Claim C3: a grow request longer than the available inactive capacity with
`discard_unused=false` fails (the source raises `IndexError`, the spec's
`CapacityError`) and mutates nothing: applied as an operation, the state is
returned unchanged. -/
theorem claim_C3_grow_atomic (s : SPState) (row col : List ℤ) (value : GrowValue)
    (hrc : row.length = col.length)
    (hv : (expandValue row.length value).length = row.length)
    (hn : s.inactive_index.length < row.length) :
    grow_ s row col value false = Except.error GrowErr.indexError ∧
    applyOp s (Op.grow row col value false) = s := by
  have h1 : grow_ s row col value false = Except.error GrowErr.indexError := by
    unfold grow_
    rw [if_pos hrc, if_pos hv,
      if_pos (show totalInactive s < row.length from hn)]
    rfl
  refine ⟨h1, ?_⟩
  simp only [applyOp]
  rw [h1]

theorem claim_C3_witness :
    ([1] : List ℤ).length = ([1] : List ℤ).length ∧
    (expandValue 1 (GrowValue.scalar 0)).length = ([1] : List ℤ).length ∧
    scenarioE.inactive_index.length < ([1] : List ℤ).length ∧
    (grow_ scenarioE [1] [1] (GrowValue.scalar 0) false =
        Except.error GrowErr.indexError ∧
      applyOp scenarioE (Op.grow [1] [1] (GrowValue.scalar 0) false) = scenarioE) :=
  ⟨rfl, by decide, by decide,
    claim_C3_grow_atomic scenarioE [1] [1] (GrowValue.scalar 0) rfl
      (by decide) (by decide)⟩

/-- Claim C6 counterexample: capacity 1, a single active connection of weight
magnitude exactly 1, pruned with threshold 1.  Per the claim a connection of
magnitude ≥ threshold must remain active; the code deactivates it, because the
source counts `abs(value) > threshold` as passing, so magnitudes equal to the
threshold fail. -/
theorem claim_C6_counterexample :
    prune_ exBoundary (some 1) none none none =
      Except.ok
        { backend := [1], active_index := [], inactive_index := [0],
          srow := [], scol := [], sval := [],
          suppressing_grow_warning := false } := rfl

/-- Claim C6 (amended): a threshold prune deactivates exactly the active
connections whose weight magnitude is at most `t` (not strictly below `t`):
the new active slots are a permutation of the slots whose paired value has
magnitude strictly greater than `t`, and the slots appended to the inactive
sequence are a permutation of those whose paired value has magnitude at most
`t`.  Magnitudes strictly above the threshold always survive, so pruning at
0.5 with all weights at 1.0 still changes nothing. -/
theorem claim_C6_threshold_prune {cap : ℕ} {s s2 : SPState} {t : ℚ}
    {sort : Option String} (hinv : Invariant cap s)
    (h : prune_ s (some t) none none sort = Except.ok s2) :
    s2.active_index.Perm
      (((s.active_index.zip s.sval).filter fun p => decide (t < |p.2|)).map
        Prod.fst) ∧
    ∃ dropped,
      s2.inactive_index = s.inactive_index ++ dropped ∧
      dropped.Perm
        (((s.active_index.zip s.sval).filter fun p => !decide (t < |p.2|)).map
          Prod.fst) := by
  obtain ⟨-, nf, hnf, rfl⟩ := prune_ok_elim h
  obtain ⟨hperm, hb, hr, hc, hv⟩ := hinv
  obtain ⟨hfail, hpass⟩ := prune_threshold_drop_gt hnf
  have hmapf : (List.range s.sval.length).map
      (fun i => (s.active_index.getD i 0, s.sval.getD i 0)) =
      s.active_index.zip s.sval := by
    rw [hv]
    exact map_range_pair 0 0 s.active_index s.sval hv
  have hpermf : ((argsortAbs s.sval).map
      (fun i => (s.active_index.getD i 0, s.sval.getD i 0))).Perm
      (s.active_index.zip s.sval) := by
    rw [← hmapf]
    exact (argsortAbs_perm s.sval).map _
  have hsplitmap : ((argsortAbs s.sval).take nf).map
        (fun i => (s.active_index.getD i 0, s.sval.getD i 0)) ++
      ((argsortAbs s.sval).drop nf).map
        (fun i => (s.active_index.getD i 0, s.sval.getD i 0)) =
      (argsortAbs s.sval).map
        (fun i => (s.active_index.getD i 0, s.sval.getD i 0)) := by
    rw [← List.map_append, List.take_append_drop]
  have hfilter_take : (((argsortAbs s.sval).take nf).map
      (fun i => (s.active_index.getD i 0, s.sval.getD i 0))).filter
        (fun p => decide (t < |p.2|)) = [] := by
    rw [List.filter_eq_nil_iff]
    intro x hx
    obtain ⟨i, hi, rfl⟩ := List.mem_map.1 hx
    simpa using not_lt_of_le (hfail i hi)
  have hfilter_drop : (((argsortAbs s.sval).drop nf).map
      (fun i => (s.active_index.getD i 0, s.sval.getD i 0))).filter
        (fun p => decide (t < |p.2|)) =
      ((argsortAbs s.sval).drop nf).map
        (fun i => (s.active_index.getD i 0, s.sval.getD i 0)) := by
    rw [List.filter_eq_self]
    intro x hx
    obtain ⟨i, hi, rfl⟩ := List.mem_map.1 hx
    simpa using hpass i hi
  have hfilter_take2 : (((argsortAbs s.sval).take nf).map
      (fun i => (s.active_index.getD i 0, s.sval.getD i 0))).filter
        (fun p => !decide (t < |p.2|)) =
      ((argsortAbs s.sval).take nf).map
        (fun i => (s.active_index.getD i 0, s.sval.getD i 0)) := by
    rw [List.filter_eq_self]
    intro x hx
    obtain ⟨i, hi, rfl⟩ := List.mem_map.1 hx
    simpa using not_lt_of_le (hfail i hi)
  have hfilter_drop2 : (((argsortAbs s.sval).drop nf).map
      (fun i => (s.active_index.getD i 0, s.sval.getD i 0))).filter
        (fun p => !decide (t < |p.2|)) = [] := by
    rw [List.filter_eq_nil_iff]
    intro x hx
    obtain ⟨i, hi, rfl⟩ := List.mem_map.1 hx
    simpa using hpass i hi
  constructor
  · have hkey : gather 0 s.active_index ((argsortAbs s.sval).drop nf) =
        (((argsortAbs s.sval).map
          (fun i => (s.active_index.getD i 0, s.sval.getD i 0))).filter
            (fun p => decide (t < |p.2|))).map Prod.fst := by
      rw [← hsplitmap, List.filter_append, hfilter_take, hfilter_drop,
        List.nil_append, List.map_map]
      rfl
    have : (gather 0 s.active_index ((argsortAbs s.sval).drop nf)).Perm
        (((s.active_index.zip s.sval).filter fun p => decide (t < |p.2|)).map
          Prod.fst) := by
      rw [hkey]
      exact ((hpermf.filter _).map _)
    exact this
  · refine ⟨gather 0 s.active_index ((argsortAbs s.sval).take nf), rfl, ?_⟩
    have hkey : gather 0 s.active_index ((argsortAbs s.sval).take nf) =
        (((argsortAbs s.sval).map
          (fun i => (s.active_index.getD i 0, s.sval.getD i 0))).filter
            (fun p => !decide (t < |p.2|))).map Prod.fst := by
      rw [← hsplitmap, List.filter_append, hfilter_take2, hfilter_drop2,
        List.append_nil, List.map_map]
      rfl
    rw [hkey]
    exact ((hpermf.filter _).map _)

theorem claim_C6_witness :
    Invariant 2 exTwoWeights ∧
    (prune_ exTwoWeights (some 2) none none none =
      Except.ok exTwoWeightsPruned) ∧
    (exTwoWeightsPruned.active_index.Perm
      (((exTwoWeights.active_index.zip exTwoWeights.sval).filter
        fun p => decide ((2:ℚ) < |p.2|)).map Prod.fst) ∧
    ∃ dropped,
      exTwoWeightsPruned.inactive_index =
          exTwoWeights.inactive_index ++ dropped ∧
      dropped.Perm
        (((exTwoWeights.active_index.zip exTwoWeights.sval).filter
          fun p => !decide ((2:ℚ) < |p.2|)).map Prod.fst)) :=
  ⟨by decide, rfl,
    @claim_C6_threshold_prune 2 exTwoWeights exTwoWeightsPruned 2 none
      (by decide) rfl⟩

/-- Claim C7 counterexample: state with active slots `[0, 1]` carrying weights
`[3, 1]`; a threshold-0 prune deactivates nothing, yet the surviving
connections come back as `[1, 3]` with active slots `[1, 0]` — the survivors'
pre-prune relative order is not preserved (they are re-emitted in the argsort
order, ascending magnitude). -/
theorem claim_C7_counterexample :
    prune_ exTwoWeights (some 0) none none none =
      Except.ok exTwoWeightsPruned0 := rfl

/-- Claim C7 (amended): after a successful prune the four parallel sequences
(`row`, `col`, `value`, `active_index`) are all gathered along one common
index list, so their positional correspondence is preserved, but the
surviving connections appear in ascending order of weight magnitude (the
prune ranking's order), not in their pre-prune relative order. -/
theorem claim_C7_survivor_order {s s2 : SPState} {th rel ab : Option ℚ}
    {sort : Option String} (h : prune_ s th rel ab sort = Except.ok s2) :
    ∃ passed : List ℕ,
      s2.active_index = gather 0 s.active_index passed ∧
      s2.srow = gather 0 s.srow passed ∧
      s2.scol = gather 0 s.scol passed ∧
      s2.sval = gather 0 s.sval passed ∧
      s2.sval.Pairwise fun a b => |a| ≤ |b| := by
  obtain ⟨-, nf, -, rfl⟩ := prune_ok_elim h
  refine ⟨(argsortAbs s.sval).drop nf, rfl, rfl, rfl, rfl, ?_⟩
  have hsub : ((argsortAbs s.sval).drop nf).Pairwise
      fun i j => |s.sval.getD i 0| ≤ |s.sval.getD j 0| :=
    (argsortAbs_sorted s.sval).sublist (List.drop_sublist nf (argsortAbs s.sval))
  have : (gather 0 s.sval ((argsortAbs s.sval).drop nf)).Pairwise
      fun a b => |a| ≤ |b| := by
    rw [gather, List.pairwise_map]
    exact hsub
  exact this

theorem claim_C7_witness :
    (prune_ exTwoWeights (some 0) none none none =
      Except.ok exTwoWeightsPruned0) ∧
    ∃ passed : List ℕ,
      exTwoWeightsPruned0.active_index = gather 0 exTwoWeights.active_index passed ∧
      exTwoWeightsPruned0.srow = gather 0 exTwoWeights.srow passed ∧
      exTwoWeightsPruned0.scol = gather 0 exTwoWeights.scol passed ∧
      exTwoWeightsPruned0.sval = gather 0 exTwoWeights.sval passed ∧
      exTwoWeightsPruned0.sval.Pairwise fun a b => |a| ≤ |b| :=
  ⟨rfl, @claim_C7_survivor_order exTwoWeights exTwoWeightsPruned0
    (some 0) none none none rfl⟩

/-- A threshold prune on a state all of whose values have magnitude strictly
above the threshold deactivates nothing: the inactive sequence is untouched
and the active sequence is only permuted. -/
theorem prune_threshold_noop {cap : ℕ} {s s2 : SPState} {t : ℚ}
    {sort : Option String} (hinv : Invariant cap s)
    (hall : ∀ v ∈ s.sval, t < |v|)
    (h : prune_ s (some t) none none sort = Except.ok s2) :
    s2.inactive_index = s.inactive_index ∧ s2.active_index.Perm s.active_index := by
  obtain ⟨-, nf, hnf, rfl⟩ := prune_ok_elim h
  obtain ⟨-, -, -, -, hv⟩ := hinv
  have hnf' : (s.sval.countP fun v => !decide (t < |v|)) = nf := by
    simpa [numFailed] using hnf
  have hzero : (s.sval.countP fun v => !decide (t < |v|)) = 0 := by
    rw [List.countP_eq_zero]
    intro v hv2
    simp [hall v hv2]
  have hnf0 : nf = 0 := by
    rw [← hnf']
    exact hzero
  subst hnf0
  constructor
  · simp [gather]
  · have hgoal : (gather 0 s.active_index ((argsortAbs s.sval).drop 0)).Perm
        s.active_index := by
      rw [List.drop_zero]
      exact gather_argsort_perm hv
    exact hgoal

/-- Claim C8: pruning twice with the same threshold and no intervening grow —
the second prune deactivates nothing: the inactive index sequence is exactly
unchanged by the second call and the active index sequence holds exactly the
same slots (a permutation of its previous contents). -/
theorem claim_C8_threshold_idempotent {cap : ℕ} {s s1 s2 : SPState} {t : ℚ}
    {sort1 sort2 : Option String} (hinv : Invariant cap s)
    (h1 : prune_ s (some t) none none sort1 = Except.ok s1)
    (h2 : prune_ s1 (some t) none none sort2 = Except.ok s2) :
    s2.inactive_index = s1.inactive_index ∧
    s2.active_index.Perm s1.active_index := by
  have hinv1 := prune_preserves hinv h1
  have hall : ∀ v ∈ s1.sval, t < |v| := by
    obtain ⟨-, nf1, hnf1, rfl⟩ := prune_ok_elim h1
    have hpass := (prune_threshold_drop_gt hnf1).2
    intro v hv
    obtain ⟨i, hi, rfl⟩ := List.mem_map.1
      (show v ∈ ((argsortAbs s.sval).drop nf1).map (fun i => s.sval.getD i 0)
        from hv)
    exact hpass i hi
  exact prune_threshold_noop hinv1 hall h2

theorem claim_C8_witness :
    Invariant 2 exTwoWeights ∧
    (prune_ exTwoWeights (some 2) none none none =
      Except.ok exTwoWeightsPruned) ∧
    (prune_ exTwoWeightsPruned (some 2) none none none =
      Except.ok exTwoWeightsPruned) ∧
    (exTwoWeightsPruned.inactive_index = exTwoWeightsPruned.inactive_index ∧
      exTwoWeightsPruned.active_index.Perm exTwoWeightsPruned.active_index) :=
  ⟨by decide, rfl, rfl,
    @claim_C8_threshold_idempotent 2 exTwoWeights exTwoWeightsPruned
      exTwoWeightsPruned 2 none none (by decide) rfl rfl⟩

/-- When the request length equals the whole inactive list, `growCommit`
consumes every inactive slot, writes the values at those slots, and appends
the request verbatim. -/
theorem growCommit_full {s : SPState} {rr cc : List ℤ} {vv : List ℚ}
    {sup w : Bool} (hlen : rr.length = s.inactive_index.length)
    (hnd : s.inactive_index.Nodup)
    (hbound : ∀ i ∈ s.inactive_index, i < s.backend.length)
    (hvv : vv.length = rr.length) :
    (growCommit s rr cc vv sup w).1.active_index =
      s.active_index ++ s.inactive_index ∧
    (growCommit s rr cc vv sup w).1.inactive_index = [] ∧
    (growCommit s rr cc vv sup w).1.srow = s.srow ++ rr ∧
    (growCommit s rr cc vv sup w).1.scol = s.scol ++ cc ∧
    (growCommit s rr cc vv sup w).1.sval = s.sval ++ vv ∧
    (growCommit s rr cc vv sup w).1.suppressing_grow_warning = sup ∧
    (growCommit s rr cc vv sup w).2.1 = !decide (0 < rr.length) ∧
    (growCommit s rr cc vv sup w).2.2 = w := by
  refine ⟨?_, ?_, ?_, ?_, ?_, ?_, ?_, ?_⟩
  · have h1 : (growCommit s rr cc vv sup w).1.active_index =
        s.active_index ++ s.inactive_index.take rr.length := by
      rw [growCommit_state]
    rw [h1, hlen, List.take_length]
  · have h1 : (growCommit s rr cc vv sup w).1.inactive_index =
        s.inactive_index.drop rr.length := by
      rw [growCommit_state]
    rw [h1, hlen, List.drop_length]
  · rw [growCommit_state]
  · rw [growCommit_state]
  · have h1 : (growCommit s rr cc vv sup w).1.sval =
        s.sval ++ gather 0 (scatter s.backend (s.inactive_index.take rr.length) vv)
          (s.inactive_index.take rr.length) := by
      rw [growCommit_state]
    rw [h1, hlen, List.take_length]
    rw [gather_scatter s.inactive_index vv s.backend hnd hbound (hvv.trans hlen)]
  · rw [growCommit_state]
  · rw [growCommit_ret, hlen, List.drop_length]
    rfl
  · rw [growCommit_warned]

/-- Claim C4: a grow request of `n` connections with only `m < n` inactive
slots and `discard_unused=true` activates exactly the `m` available slots,
carrying precisely the first `m` entries of the requested `row`, `col` and
`value` sequences in order; the diagnostic warning is emitted exactly when
this is the first truncation on the instance (`suppressing_grow_warning`
false), and the flag is left set so every later truncation is suppressed. -/
theorem claim_C4_truncation {cap : ℕ} {s : SPState} (row col : List ℤ)
    (value : GrowValue) (hinv : Invariant cap s)
    (hrc : row.length = col.length)
    (hvlen : (expandValue row.length value).length = row.length)
    (hm : s.inactive_index.length < row.length) :
    ∃ s2 : SPState,
      grow_ s row col value true =
        Except.ok (s2, !decide (0 < s.inactive_index.length),
          !s.suppressing_grow_warning) ∧
      s2.active_index = s.active_index ++ s.inactive_index ∧
      s2.inactive_index = [] ∧
      s2.srow = s.srow ++ row.take s.inactive_index.length ∧
      s2.scol = s.scol ++ col.take s.inactive_index.length ∧
      s2.sval = s.sval ++ (expandValue row.length value).take s.inactive_index.length ∧
      s2.suppressing_grow_warning = true := by
  obtain ⟨hperm, hb, hr, hc, hv⟩ := hinv
  have hgrow : grow_ s row col value true =
      Except.ok (growCommit s (row.take (totalInactive s))
        (col.take (totalInactive s))
        ((expandValue row.length value).take (totalInactive s)) true
        (!s.suppressing_grow_warning)) := by
    unfold grow_
    rw [if_pos hrc, if_pos hvlen,
      if_pos (show totalInactive s < row.length from hm)]
    rfl
  have hlen : (row.take (totalInactive s)).length = s.inactive_index.length := by
    simp only [List.length_take, totalInactive]
    exact Nat.min_eq_left (Nat.le_of_lt hm)
  have hnd : s.inactive_index.Nodup := by
    have h1 : (s.active_index ++ s.inactive_index).Nodup :=
      hperm.nodup_iff.2 (List.nodup_range cap)
    exact h1.of_append_right
  have hbound : ∀ i ∈ s.inactive_index, i < s.backend.length := by
    intro i hi
    have h1 : i ∈ List.range cap :=
      hperm.mem_iff.1 (List.mem_append_right _ hi)
    rw [hb]
    exact List.mem_range.1 h1
  have hvv : ((expandValue row.length value).take (totalInactive s)).length =
      (row.take (totalInactive s)).length := by
    simp only [List.length_take, totalInactive, hvlen]
  obtain ⟨ha, hi, hrow2, hcol2, hval2, hsup, hret, hwrn⟩ :=
    growCommit_full hlen hnd hbound hvv
  refine ⟨(growCommit s (row.take (totalInactive s)) (col.take (totalInactive s))
      ((expandValue row.length value).take (totalInactive s)) true
      (!s.suppressing_grow_warning)).1, ?_, ha, hi, hrow2, hcol2, hval2, hsup⟩
  rw [hgrow]
  have heta : (growCommit s (row.take (totalInactive s)) (col.take (totalInactive s))
      ((expandValue row.length value).take (totalInactive s)) true
      (!s.suppressing_grow_warning)) =
      ((growCommit s (row.take (totalInactive s)) (col.take (totalInactive s))
        ((expandValue row.length value).take (totalInactive s)) true
        (!s.suppressing_grow_warning)).1,
       (growCommit s (row.take (totalInactive s)) (col.take (totalInactive s))
        ((expandValue row.length value).take (totalInactive s)) true
        (!s.suppressing_grow_warning)).2.1,
       (growCommit s (row.take (totalInactive s)) (col.take (totalInactive s))
        ((expandValue row.length value).take (totalInactive s)) true
        (!s.suppressing_grow_warning)).2.2) := rfl
  rw [heta, hret, hwrn, hlen]

theorem claim_C4_witness :
    Invariant 2 exOneSpare ∧
    ([5, 6] : List ℤ).length = ([5, 6] : List ℤ).length ∧
    (expandValue 2 (GrowValue.scalar 3)).length = 2 ∧
    exOneSpare.inactive_index.length < 2 ∧
    (∃ s2 : SPState,
      grow_ exOneSpare [5, 6] [5, 6] (GrowValue.scalar 3) true =
        Except.ok (s2, !decide (0 < exOneSpare.inactive_index.length),
          !exOneSpare.suppressing_grow_warning) ∧
      s2.active_index = exOneSpare.active_index ++ exOneSpare.inactive_index ∧
      s2.inactive_index = [] ∧
      s2.srow = exOneSpare.srow ++
        ([5, 6] : List ℤ).take exOneSpare.inactive_index.length ∧
      s2.scol = exOneSpare.scol ++
        ([5, 6] : List ℤ).take exOneSpare.inactive_index.length ∧
      s2.sval = exOneSpare.sval ++
        (expandValue 2 (GrowValue.scalar 3)).take exOneSpare.inactive_index.length ∧
      s2.suppressing_grow_warning = true) :=
  ⟨by decide, rfl, by decide, by decide,
    @claim_C4_truncation 2 exOneSpare [5, 6] [5, 6] (GrowValue.scalar 3)
      (by decide) rfl (by decide) (by decide)⟩

/-- A broadcast prune whose first per-instance outcome is a success returns
the per-instance outcome list (no aggregate re-raise). -/
theorem prune_all_ok_head {ps : List SPState}
    {th rel ab : Option ℚ} {sort : Option String} {s2 : SPState}
    {rest : List (Except PruneErr SPState)}
    (h : pruneResults ps th rel ab sort = Except.ok s2 :: rest) :
    prune_all ps th rel ab sort = Except.ok (Except.ok s2 :: rest) := by
  unfold prune_all
  rw [h]

/-- A broadcast grow whose per-instance outcomes contain a capacity failure
returns the per-instance outcome list: `IndexError` is never the aggregate
validation error, so it blocks the re-raise. -/
theorem grow_all_of_index_error_mem {ps : List SPState} {row col : List ℤ}
    {value : GrowValue} {d : Bool}
    {res : List (Except GrowErr (SPState × Bool × Bool))}
    (h : growResults ps row col value d = res)
    (hmem : Except.error GrowErr.indexError ∈ res) :
    grow_all ps row col value d = Except.ok res := by
  unfold grow_all
  rw [h]
  cases res with
  | nil => exact absurd hmem (List.not_mem_nil _)
  | cons r rest =>
    cases r with
    | ok out => rfl
    | error e =>
      cases e with
      | indexError => rfl
      | assertionError =>
        have hfalse : (rest.all fun r =>
            match r with
            | Except.error GrowErr.assertionError => true
            | _ => false) = false := by
          rw [List.all_eq_false]
          rcases List.mem_cons.1 hmem with heq | hmem2
          · exact absurd heq (by simp)
          · exact ⟨_, hmem2, by simp⟩
        simp [hfalse]

/-- Claim C9: a Gardener built over a root model applies the broadcast prune
and grow operations to every SparseParameter discovered at construction,
returning the per-instance outcome list; a (necessarily state-dependent,
hence capacity) failure on one instance is recorded in place without halting
processing of the remaining instances.  (When instead every instance fails
identically with a caller-side configuration error, `prune_all`/`grow_all`
re-raise it, per the spec; the hypotheses here place the call outside that
case.) -/
theorem claim_C9_broadcast_per_instance (ms1 ms2 : List ModuleItem)
    (good bad sg : SPState) (th rel ab : Option ℚ) (sort : Option String)
    (row col : List ℤ) (value : GrowValue) (d : Bool)
    (hpg : prune_ good th rel ab sort = Except.ok sg)
    (hgb : grow_ bad row col value d = Except.error GrowErr.indexError) :
    prune_all (gardenerInit
        (ModuleItem.sparse good :: (ms1 ++ ModuleItem.sparse bad :: ms2)))
        th rel ab sort =
      Except.ok (Except.ok sg ::
        (pruneResults (gardenerInit ms1) th rel ab sort ++
          prune_ bad th rel ab sort ::
            pruneResults (gardenerInit ms2) th rel ab sort)) ∧
    grow_all (gardenerInit
        (ModuleItem.sparse good :: (ms1 ++ ModuleItem.sparse bad :: ms2)))
        row col value d =
      Except.ok (grow_ good row col value d ::
        (growResults (gardenerInit ms1) row col value d ++
          Except.error GrowErr.indexError ::
            growResults (gardenerInit ms2) row col value d)) := by
  have hsplit : gardenerInit
      (ModuleItem.sparse good :: (ms1 ++ ModuleItem.sparse bad :: ms2)) =
      good :: (gardenerInit ms1 ++ bad :: gardenerInit ms2) := by
    simp [gardenerInit]
  constructor
  · apply prune_all_ok_head
    rw [hsplit]
    simp [pruneResults, hpg]
  · apply grow_all_of_index_error_mem
    · rw [hsplit]
      simp [growResults, hgb]
    · simp

theorem claim_C9_witness :
    (prune_ exEmpty3 (some 1) none none none = Except.ok exEmpty3) ∧
    (grow_ scenarioE [1] [1] (GrowValue.scalar 0) false =
      Except.error GrowErr.indexError) ∧
    (prune_all (gardenerInit (ModuleItem.sparse exEmpty3 ::
          ([ModuleItem.dense] ++ ModuleItem.sparse scenarioE :: [])))
        (some 1) none none none =
      Except.ok (Except.ok exEmpty3 ::
        (pruneResults (gardenerInit [ModuleItem.dense]) (some 1) none none none ++
          prune_ scenarioE (some 1) none none none ::
            pruneResults (gardenerInit ([] : List ModuleItem))
              (some 1) none none none)) ∧
    grow_all (gardenerInit (ModuleItem.sparse exEmpty3 ::
          ([ModuleItem.dense] ++ ModuleItem.sparse scenarioE :: [])))
        [1] [1] (GrowValue.scalar 0) false =
      Except.ok (grow_ exEmpty3 [1] [1] (GrowValue.scalar 0) false ::
        (growResults (gardenerInit [ModuleItem.dense])
            [1] [1] (GrowValue.scalar 0) false ++
          Except.error GrowErr.indexError ::
            growResults (gardenerInit ([] : List ModuleItem))
              [1] [1] (GrowValue.scalar 0) false))) :=
  ⟨rfl, rfl,
    claim_C9_broadcast_per_instance [ModuleItem.dense] [] exEmpty3 scenarioE
      exEmpty3 (some 1) none none none [1] [1] (GrowValue.scalar 0) false
      rfl rfl⟩
